import Mathlib

/-!
Verification development for the Discord voice transcription bot
(source file `bot.py`).  The Python source is shallowly embedded:
bytes become `List Nat` (one entry per byte, values 0..255), 16-bit
signed PCM samples become `Int`, wall-clock times become `ℚ` (seconds),
and Python float arithmetic inside the resampler is idealised as exact
rational arithmetic.  The external WebRTC VAD classifier and the Whisper
speech engine are abstracted as function parameters, since they are
third-party collaborators outside the repository.
-/

/-! ## Configuration constants (module-level constants of the source) -/

def REALTIME_CHUNK_DURATION_MS : Nat := 1200

def VAD_AGGRESSIVENESS : Nat := 0

def MIN_SPEECH_DURATION_MS : Nat := 300

def SILENCE_THRESHOLD_MS : Nat := 1000

def OVERLAP_DURATION_MS : Nat := 200

def WHISPER_SAMPLE_RATE : Nat := 16000

def PCM_SAMPLE_RATE : Nat := 48000

def PCM_BYTES_PER_SAMPLE : Nat := 2

def PCM_CHANNELS : Nat := 2

/-- `REALTIME_CHUNK_SAMPLES = int(WHISPER_SAMPLE_RATE * REALTIME_CHUNK_DURATION_MS / 1000)`;
the division is exact, so Nat division is faithful. -/
def REALTIME_CHUNK_SAMPLES : Nat := WHISPER_SAMPLE_RATE * REALTIME_CHUNK_DURATION_MS / 1000

/-- `REALTIME_CHUNK_BYTES = REALTIME_CHUNK_SAMPLES * 2` (16-bit mono). -/
def REALTIME_CHUNK_BYTES : Nat := REALTIME_CHUNK_SAMPLES * 2

/-- Overlap in bytes, computed inline in `get_audio_chunk` as
`int(REALTIME_CHUNK_BYTES * OVERLAP_DURATION_MS / REALTIME_CHUNK_DURATION_MS)`;
the division is exact (38400 * 200 / 1200 = 6400). -/
def OVERLAP_BYTES : Nat := REALTIME_CHUNK_BYTES * OVERLAP_DURATION_MS / REALTIME_CHUNK_DURATION_MS

/-! ## Bytes and 16-bit samples

`np.frombuffer(audio_data, dtype=np.int16)` reads little-endian byte
pairs as signed 16-bit integers.  A trailing odd byte would make numpy
raise; it cannot occur for valid 16-bit PCM, and the embedding ignores it. -/

/-- Interpret a 16-bit unsigned value as a signed int16. -/
def toInt16 (v : Nat) : Int :=
  if v % 65536 < 32768 then ((v % 65536 : Nat) : Int)
  else ((v % 65536 : Nat) : Int) - 65536

/-- Decode little-endian byte pairs into int16 samples (`np.frombuffer`). -/
def bytesToInt16 : List Nat → List Int
  | lo :: hi :: rest => toInt16 (lo + 256 * hi) :: bytesToInt16 rest
  | _ => []

/-- Encode int16 samples back to little-endian bytes (`ndarray.tobytes`). -/
def int16ToBytes : List Int → List Nat
  | [] => []
  | s :: rest => ((s % 65536).toNat % 256) :: ((s % 65536).toNat / 256) :: int16ToBytes rest

/-- Truncation toward zero, the behaviour of `astype(np.int16)` and of
Python `int()` on a nonnegative float. -/
def ratTrunc (q : ℚ) : Int := if q < 0 then ⌈q⌉ else ⌊q⌋

/-! ## AudioUtils.resample_audio -/

/-- One step of `reshape(-1, 2).mean(axis=1).astype(np.int16)`: averages
consecutive interleaved sample pairs, truncating the mean toward zero. -/
def downmixPairs : List Int → List Int
  | a :: b :: rest => ratTrunc (((a : ℚ) + (b : ℚ)) / 2) :: downmixPairs rest
  | _ => []

/-- `np.linspace(a, b, num)`: `num` evenly spaced points from `a` to `b`
inclusive (a single point is `a`; zero points is empty). -/
def linspace (a b : ℚ) (num : Nat) : List ℚ :=
  if num = 0 then []
  else if num = 1 then [a]
  else (List.range num).map (fun j => a + (b - a) * (j : ℚ) / ((num : ℚ) - 1))

/-- `np.interp` evaluated at position `t` against sample points
`0, 1, ..., n-1` with values `fp` (the use site only queries
`t ∈ [0, n-1]`). -/
def interpAt (fp : List Int) (t : ℚ) : ℚ :=
  let i := (⌊t⌋).toNat
  if i + 1 < fp.length then
    ((fp.getD i 0 : Int) : ℚ)
      + (((fp.getD (i + 1) 0 : Int) : ℚ) - ((fp.getD i 0 : Int) : ℚ)) * (t - (i : ℚ))
  else
    ((fp.getD (fp.length - 1) 0 : Int) : ℚ)

/-- The rate-conversion block of `resample_audio`: target/original rate
quotient, `new_length = int(len(audio_array) * ratio)`, then linear
interpolation at `np.linspace(0, len - 1, new_length)` truncated back to
int16.  Python float arithmetic is idealised as exact rationals. -/
def rateConvert (a : List Int) (original_rate target_rate : Nat) : List Int :=
  let new_length := Int.toNat (ratTrunc ((a.length : ℚ) * ((target_rate : ℚ) / (original_rate : ℚ))))
  (linspace 0 ((a.length : ℚ) - 1) new_length).map (fun t => ratTrunc (interpAt a t))

/-- `AudioUtils.resample_audio(audio_data, original_rate, target_rate)`:
decode bytes to int16, downmix to mono when the sample count is divisible
by `PCM_CHANNELS`, then rate-convert when the rates differ.
Named with a `_fn` suffix purely for the Lean lexer. -/
def resample_audio_fn (audio_data : List Nat) (original_rate target_rate : Nat) : List Nat :=
  let audio_array := bytesToInt16 audio_data
  let audio_array := if audio_array.length % PCM_CHANNELS = 0 then downmixPairs audio_array else audio_array
  if original_rate ≠ target_rate then
    int16ToBytes (rateConvert audio_array original_rate target_rate)
  else
    int16ToBytes audio_array

/-! ## AudioUtils.apply_vad

The external `webrtcvad.Vad(aggressiveness).is_speech(frame, rate)`
classifier is abstracted as a Boolean function `cls` on the frame bytes.
The modelled path is the non-raising path; the `except` handler of the
source returns `True` (fail-open) and is outside this embedding. -/

def supported_rates : List Nat := [8000, 16000, 32000, 48000]

/-- `AudioUtils.apply_vad(audio_data, sample_rate, aggressiveness)`.
`frame_size = int(sample_rate * 30 / 1000) * 2`; the Python loop
`for i in range(0, len(audio_data) - frame_size + 1, frame_size)` visits
exactly the `len / frame_size` complete frames, and the early `break`
makes the result the disjunction over those frames. -/
def apply_vad (cls : List Nat → Bool) (audio_data : List Nat) (sample_rate : Nat) : Bool :=
  if sample_rate ∉ supported_rates then
    true
  else
    let frame_size := sample_rate * 30 / 1000 * 2
    if audio_data.length < frame_size then
      false
    else
      (List.range (audio_data.length / frame_size)).any
        (fun j => cls ((audio_data.drop (j * frame_size)).take frame_size))

/-! ## StreamingAudioBuffer

Fields mirror the Python object.  The unused `self.audio_buffer` deque
(never read or written after `__init__`) is omitted.  The accumulator
field carries a `_bytes` suffix purely for the Lean lexer. -/

structure StreamingAudioBuffer where
  user_id : Nat
  username : String
  accumulated_audio_bytes : List Nat
  last_processed_buffer_length : Nat
  is_speaking : Bool
  last_speech_time : ℚ
deriving DecidableEq

/-- `StreamingAudioBuffer.add_audio(audio_data)`: resample the 48 kHz
stereo frame to 16 kHz mono, always extend the accumulator, then run the
VAD on the resampled frame and update the speaking state.  Returns the
updated buffer and the Boolean the method returns (utterance ended).
`current_time` stands for `time.time()`; `cls` abstracts
`webrtcvad.Vad(VAD_AGGRESSIVENESS).is_speech( . , 16000)`. -/
def add_audio_fn (cls : List Nat → Bool) (current_time : ℚ) (audio_data : List Nat)
    (b : StreamingAudioBuffer) : StreamingAudioBuffer × Bool :=
  let resampled := resample_audio_fn audio_data PCM_SAMPLE_RATE WHISPER_SAMPLE_RATE
  let b2 : StreamingAudioBuffer :=
    { b with accumulated_audio_bytes := b.accumulated_audio_bytes ++ resampled }
  if apply_vad cls resampled WHISPER_SAMPLE_RATE then
    ({ b2 with last_speech_time := current_time, is_speaking := true }, false)
  else if b2.is_speaking = true ∧ current_time - b2.last_speech_time > (SILENCE_THRESHOLD_MS : ℚ) / 1000 then
    if b2.accumulated_audio_bytes.length > 0 then
      ({ b2 with is_speaking := false }, true)
    else
      ({ b2 with is_speaking := false }, false)
  else
    (b2, false)

/-- Python slice `l[start:stop]` for `0 ≤ start ≤ stop`. -/
def pySlice (l : List Nat) (start stop : Nat) : List Nat := (l.drop start).take (stop - start)

/-- `StreamingAudioBuffer.get_audio_chunk()`: when at least
`REALTIME_CHUNK_BYTES` of unconsumed data lie beyond the cursor, cut
`accumulated_audio[chunk_start_index:chunk_end_index]` where the start is
the cursor minus the overlap clamped at zero, advance the cursor to the
end of the cut, and return the chunk; otherwise return nothing.  The
accumulator itself is not modified. -/
def get_audio_chunk (b : StreamingAudioBuffer) : StreamingAudioBuffer × Option (List Nat) :=
  let new_data_length : Int :=
    (b.accumulated_audio_bytes.length : Int) - (b.last_processed_buffer_length : Int)
  if new_data_length ≥ (REALTIME_CHUNK_BYTES : Int) then
    let chunk_start_raw : Int := (b.last_processed_buffer_length : Int) - (OVERLAP_BYTES : Int)
    let chunk_start_index : Int := if chunk_start_raw < 0 then 0 else chunk_start_raw
    let chunk_end_index : Int := chunk_start_index + (REALTIME_CHUNK_BYTES : Int)
    let chunk := pySlice b.accumulated_audio_bytes chunk_start_index.toNat chunk_end_index.toNat
    ({ b with last_processed_buffer_length := chunk_end_index.toNat }, some chunk)
  else
    (b, none)

/-- `StreamingAudioBuffer.get_remaining_audio()`: when the accumulator is
non-empty, return a copy of the whole accumulator, clear it and reset the
cursor; otherwise return nothing.  Named with a `_fn` suffix purely for
the Lean lexer. -/
def get_remaining_audio_fn (b : StreamingAudioBuffer) : StreamingAudioBuffer × Option (List Nat) :=
  if b.accumulated_audio_bytes.length > 0 then
    ({ b with accumulated_audio_bytes := [], last_processed_buffer_length := 0 },
     some b.accumulated_audio_bytes)
  else
    (b, none)

/-- Fold a list of timed frames through `add_audio`, keeping the buffer
state (the returned Booleans are discarded). -/
def runAdds (cls : List Nat → Bool) : StreamingAudioBuffer → List (ℚ × List Nat) → StreamingAudioBuffer
  | b, [] => b
  | b, (now, frame) :: rest => runAdds cls (add_audio_fn cls now frame b).1 rest

/-! ## RealtimeTranscriptionEngine

The worker thread, the two `queue.Queue` objects and the temp-file WAV
round trip are embedded as pure state transitions: the input queue and
output queue are lists, one worker step processes one task, and the
Whisper engine is abstracted as a function from chunk bytes to the
concatenated segment text. -/

structure TranscriptionTask where
  audio_data : List Nat
  user_id : Nat
  username : String
  guild_id : Nat
  timestamp : ℚ
deriving DecidableEq

structure TranscriptionResult where
  user_id : Nat
  username : String
  guild_id : Nat
  transcription : String
  timestamp : ℚ
deriving DecidableEq

/-- The module-level `HALLUCINATION_TEXTS` denylist, verbatim. -/
def HALLUCINATION_TEXTS : List String :=
  ["ご視聴ありがとうございました", "ご視聴ありがとうございました。",
   "ありがとうございました", "ありがとうございました。",
   "どうもありがとうございました", "どうもありがとうございました。",
   "どうも、ありがとうございました", "どうも、ありがとうございました。",
   "おやすみなさい", "おやすみなさい。",
   "Thanks for watching!",
   "終わり", "おわり",
   "お疲れ様でした", "お疲れ様でした。"]

/-- Python `str.isspace` on the whitespace characters relevant here:
ASCII whitespace, NBSP and the ideographic space. -/
def pyIsSpace (c : Char) : Bool :=
  c == ' ' || c == '\t' || c == '\n' || c == '\r' ||
  c.toNat == 11 || c.toNat == 12 || c.toNat == 160 || c.toNat == 12288

/-- Python `str.strip()`: drop whitespace from both ends. -/
def pyStrip (s : String) : String :=
  String.mk (((s.data.dropWhile pyIsSpace).reverse.dropWhile pyIsSpace).reverse)

/-- One iteration of `RealtimeTranscriptionEngine._transcription_worker`
applied to a dequeued task: skip a chunk shorter than half a realtime
chunk, otherwise transcribe (empty text when `self.whisper_model` is
unavailable), strip, filter against the denylist, and emit at most one
result.  `transcribe` abstracts `self.whisper_model.transcribe` with the
per-segment texts concatenated. -/
def process_task (transcribe : List Nat → String) (has_model : Bool)
    (task : TranscriptionTask) : Option TranscriptionResult :=
  if task.audio_data.length < REALTIME_CHUNK_BYTES / 2 then
    none
  else
    let transcription := if has_model then transcribe task.audio_data else ""
    let stripped := pyStrip transcription
    if stripped ≠ "" ∧ stripped ∉ HALLUCINATION_TEXTS then
      some { user_id := task.user_id, username := task.username, guild_id := task.guild_id,
             transcription := stripped, timestamp := task.timestamp }
    else
      none

structure EngineState where
  is_running : Bool
  transcription_queue : List TranscriptionTask
  result_queue : List TranscriptionResult
deriving DecidableEq

/-- `RealtimeTranscriptionEngine.submit_audio(audio_data, user_id,
username, guild_id)`: enqueue a task only while the engine is running.
`now` stands for the `time.time()` timestamp of the task dict. -/
def submit_audio_fn (now : ℚ) (audio_data : List Nat) (user_id : Nat) (username : String)
    (guild_id : Nat) (e : EngineState) : EngineState :=
  if e.is_running then
    { e with transcription_queue :=
        e.transcription_queue ++ [⟨audio_data, user_id, username, guild_id, now⟩] }
  else
    e

/-- `RealtimeTranscriptionEngine.get_result()`: pop the front of the
result queue, or nothing when empty. -/
def get_result (e : EngineState) : EngineState × Option TranscriptionResult :=
  match e.result_queue with
  | [] => (e, none)
  | r :: rest => ({ e with result_queue := rest }, some r)

/-! ## RealtimeVoiceProcessor

Guild and user maps are embedded as association lists in insertion
order (Python dict order).  The asyncio tasks are represented by the
guild ids for which they are alive; `dispatched` records the messages
the result-polling loop has sent to text channels. -/

structure RealtimeVoiceProcessorState where
  engine : EngineState
  audio_buffers : List (Nat × List (Nat × StreamingAudioBuffer))
  text_channels : List Nat
  result_polling_tasks : List Nat
  periodic_chunk_processing_tasks : List Nat
  dispatched : List TranscriptionResult
deriving DecidableEq

/-- The flush loop inside `stop_processing`: for each speaker buffer of
the guild in insertion order, take `get_remaining_audio()` and submit
it as a final task when truthy. -/
def flushBuffers (now : ℚ) (guild_id : Nat) (e : EngineState) :
    List (Nat × StreamingAudioBuffer) → EngineState
  | [] => e
  | (uid, b) :: rest =>
    match (get_remaining_audio_fn b).2 with
    | some remaining =>
      if remaining.length > 0 then
        flushBuffers now guild_id (submit_audio_fn now remaining uid b.username guild_id e) rest
      else
        flushBuffers now guild_id e rest
    | none => flushBuffers now guild_id e rest

/-- `RealtimeVoiceProcessor.stop_processing(guild_id)`: cancel and drop
the result-polling and periodic-chunk tasks, flush every remaining
speaker buffer of the guild into a final submitted task, then delete the
guild from the buffer and channel maps.  The engine keeps running, its
queues are untouched, and nothing further is dispatched. -/
def stop_processing (now : ℚ) (guild_id : Nat)
    (s : RealtimeVoiceProcessorState) : RealtimeVoiceProcessorState :=
  { engine := flushBuffers now guild_id s.engine ((s.audio_buffers.lookup guild_id).getD []),
    audio_buffers := s.audio_buffers.filter (fun p => p.1 != guild_id),
    text_channels := s.text_channels.filter (fun g => g != guild_id),
    result_polling_tasks := s.result_polling_tasks.filter (fun g => g != guild_id),
    periodic_chunk_processing_tasks :=
      s.periodic_chunk_processing_tasks.filter (fun g => g != guild_id),
    dispatched := s.dispatched }

/-- One iteration of `RealtimeVoiceProcessor._result_polling_loop` for a
guild whose polling task is alive: pop one result; when it belongs to
this guild and the guild still has a text channel, send it. -/
def result_polling_step (guild_id : Nat) (s : RealtimeVoiceProcessorState) :
    RealtimeVoiceProcessorState :=
  if guild_id ∈ s.result_polling_tasks then
    match get_result s.engine with
    | (e, some res) =>
      if res.guild_id = guild_id ∧ guild_id ∈ s.text_channels then
        { s with engine := e, dispatched := s.dispatched ++ [res] }
      else
        { s with engine := e }
    | (e, none) => { s with engine := e }
  else
    s

/-- The final tasks `stop_processing` submits for a guild, one per
speaker buffer with a non-empty accumulator, in insertion order. -/
def flushedTasks (now : ℚ) (guild_id : Nat) :
    List (Nat × StreamingAudioBuffer) → List TranscriptionTask
  | [] => []
  | (uid, b) :: rest =>
    if b.accumulated_audio_bytes.length > 0 then
      ⟨b.accumulated_audio_bytes, uid, b.username, guild_id, now⟩ :: flushedTasks now guild_id rest
    else
      flushedTasks now guild_id rest

/-! ## Startup and the join command

`on_ready` loads the Whisper model; only on success are the engine and
the processor created, otherwise all three globals stay `None`.  The
`join` command refuses when the author is not in a voice channel, then
refuses when `voice_processor is None`, and only otherwise listens and
starts processing.  Connection mechanics of the Discord library are
abstracted away. -/

structure InitState where
  whisper_model_loaded : Bool
  processor_initialized : Bool
deriving DecidableEq

/-- Outcome of `on_ready`: the processor exists exactly when the model
load succeeded. -/
def on_ready_init (model_load_ok : Bool) : InitState :=
  if model_load_ok then ⟨true, true⟩ else ⟨false, false⟩

inductive JoinOutcome where
  | no_voice_channel
  | stt_not_initialized
  | connected_and_started
deriving DecidableEq

/-- Decision structure of the `!join` command handler. -/
def join_outcome (author_in_voice : Bool) (g : InitState) : JoinOutcome :=
  if author_in_voice = false then JoinOutcome.no_voice_channel
  else if g.processor_initialized = false then JoinOutcome.stt_not_initialized
  else JoinOutcome.connected_and_started

/-! ## Concrete states used by counterexamples and witnesses -/

def exC1w : StreamingAudioBuffer := ⟨1, "amy", [5, 6], 0, false, 0⟩

def exC1 : StreamingAudioBuffer := ⟨3, "bob", List.replicate REALTIME_CHUNK_BYTES 0, 0, false, 0⟩

def exC2 : StreamingAudioBuffer := ⟨7, "carol", [0, 0], 2, false, 0⟩

def exC2w : StreamingAudioBuffer := ⟨8, "dave", [1, 2, 3], 1, false, 0⟩

def exC3 : StreamingAudioBuffer := ⟨9, "erin", List.replicate (REALTIME_CHUNK_BYTES + 5) 1, 0, false, 0⟩

def exR4 : TranscriptionResult := ⟨42, "alice", 1, "hello", 0⟩

def exB4 : StreamingAudioBuffer := ⟨42, "alice", [1, 2], 0, false, 0⟩

def exS4 : RealtimeVoiceProcessorState :=
  ⟨⟨true, [], [exR4]⟩, [(1, [(42, exB4)])], [1], [1], [1], []⟩

def exC6 : StreamingAudioBuffer := ⟨7, "fred", [9], 0, true, 0⟩

def exTask7 : TranscriptionTask := ⟨List.replicate (REALTIME_CHUNK_BYTES / 2) 0, 1, "gina", 4, 0⟩

/-! ## Helper lemmas -/

theorem add_audio_acc (cls : List Nat → Bool) (now : ℚ) (frame : List Nat)
    (b : StreamingAudioBuffer) :
    (add_audio_fn cls now frame b).1.accumulated_audio_bytes
      = b.accumulated_audio_bytes ++ resample_audio_fn frame PCM_SAMPLE_RATE WHISPER_SAMPLE_RATE := by
  simp only [add_audio_fn]
  split_ifs <;> rfl

theorem runAdds_acc (cls : List Nat → Bool) (frames : List (ℚ × List Nat))
    (b : StreamingAudioBuffer) :
    (runAdds cls b frames).accumulated_audio_bytes
      = b.accumulated_audio_bytes
        ++ (frames.map (fun p => resample_audio_fn p.2 PCM_SAMPLE_RATE WHISPER_SAMPLE_RATE)).flatten := by
  induction frames generalizing b with
  | nil => simp [runAdds]
  | cons p rest ih =>
    obtain ⟨now, frame⟩ := p
    simp [runAdds, ih, add_audio_acc, List.append_assoc]

theorem get_audio_chunk_acc (b : StreamingAudioBuffer) :
    (get_audio_chunk b).1.accumulated_audio_bytes = b.accumulated_audio_bytes := by
  simp only [get_audio_chunk]
  split_ifs <;> rfl

theorem get_audio_chunk_eq_none (b : StreamingAudioBuffer)
    (hlt : ¬ ((b.accumulated_audio_bytes.length : Int) - (b.last_processed_buffer_length : Int)
      ≥ (REALTIME_CHUNK_BYTES : Int))) :
    get_audio_chunk b = (b, none) := by
  simp only [get_audio_chunk]
  rw [if_neg hlt]

theorem get_audio_chunk_eq_some (b : StreamingAudioBuffer)
    (hge : (b.accumulated_audio_bytes.length : Int) - (b.last_processed_buffer_length : Int)
      ≥ (REALTIME_CHUNK_BYTES : Int)) :
    get_audio_chunk b
      = ({ b with last_processed_buffer_length :=
            (b.last_processed_buffer_length - OVERLAP_BYTES) + REALTIME_CHUNK_BYTES },
         some ((b.accumulated_audio_bytes.drop
            (b.last_processed_buffer_length - OVERLAP_BYTES)).take REALTIME_CHUNK_BYTES)) := by
  simp only [get_audio_chunk, pySlice]
  rw [if_pos hge]
  by_cases hneg : (b.last_processed_buffer_length : Int) - (OVERLAP_BYTES : Int) < 0
  · simp only [if_pos hneg]
    simp only [Prod.mk.injEq, StreamingAudioBuffer.mk.injEq, Option.some.injEq,
      true_and, and_true]
    refine ⟨by omega, ?_⟩
    have e1 : b.last_processed_buffer_length - OVERLAP_BYTES = ((0 : Int)).toNat := by omega
    have e2 : (((0 : Int) + (REALTIME_CHUNK_BYTES : Int)).toNat) - ((0 : Int)).toNat
        = REALTIME_CHUNK_BYTES := by omega
    rw [e2, e1]
  · simp only [if_neg hneg]
    simp only [Prod.mk.injEq, StreamingAudioBuffer.mk.injEq, Option.some.injEq,
      true_and, and_true]
    refine ⟨by omega, ?_⟩
    have e1 : b.last_processed_buffer_length - OVERLAP_BYTES
        = ((b.last_processed_buffer_length : Int) - (OVERLAP_BYTES : Int)).toNat := by omega
    have e2 : ((((b.last_processed_buffer_length : Int) - (OVERLAP_BYTES : Int))
          + (REALTIME_CHUNK_BYTES : Int)).toNat)
        - ((b.last_processed_buffer_length : Int) - (OVERLAP_BYTES : Int)).toNat
        = REALTIME_CHUNK_BYTES := by omega
    rw [e2, e1]

theorem get_audio_chunk_isSome (b : StreamingAudioBuffer) :
    ((get_audio_chunk b).2).isSome = true ↔
      (b.accumulated_audio_bytes.length : Int) - (b.last_processed_buffer_length : Int)
        ≥ (REALTIME_CHUNK_BYTES : Int) := by
  by_cases hge : (b.accumulated_audio_bytes.length : Int) - (b.last_processed_buffer_length : Int)
      ≥ (REALTIME_CHUNK_BYTES : Int)
  · rw [get_audio_chunk_eq_some b hge]
    simp [hge]
  · rw [get_audio_chunk_eq_none b hge]
    simp [hge]

theorem get_audio_chunk_some (b : StreamingAudioBuffer) (c : List Nat)
    (h : (get_audio_chunk b).2 = some c) :
    c.length = REALTIME_CHUNK_BYTES ∧
    c = (b.accumulated_audio_bytes.drop (b.last_processed_buffer_length - OVERLAP_BYTES)).take
          REALTIME_CHUNK_BYTES ∧
    (get_audio_chunk b).1.last_processed_buffer_length
      = (b.last_processed_buffer_length - OVERLAP_BYTES) + REALTIME_CHUNK_BYTES ∧
    (get_audio_chunk b).1.last_processed_buffer_length ≤ b.accumulated_audio_bytes.length := by
  by_cases hge : (b.accumulated_audio_bytes.length : Int) - (b.last_processed_buffer_length : Int)
      ≥ (REALTIME_CHUNK_BYTES : Int)
  · rw [get_audio_chunk_eq_some b hge] at h ⊢
    simp only [Option.some.injEq] at h
    subst h
    refine ⟨?_, rfl, rfl, ?_⟩
    · simp only [List.length_take, List.length_drop]
      omega
    · simp only []
      omega
  · rw [get_audio_chunk_eq_none b hge] at h
    simp at h

theorem get_remaining_some (b : StreamingAudioBuffer) (hne : b.accumulated_audio_bytes ≠ []) :
    get_remaining_audio_fn b
      = ({ b with accumulated_audio_bytes := [], last_processed_buffer_length := 0 },
         some b.accumulated_audio_bytes) := by
  unfold get_remaining_audio_fn
  rw [if_pos (List.length_pos.mpr hne)]

theorem get_remaining_none (b : StreamingAudioBuffer) (he : b.accumulated_audio_bytes = []) :
    get_remaining_audio_fn b = (b, none) := by
  unfold get_remaining_audio_fn
  rw [if_neg]
  simp [he]

/-! ## Claim theorems -/

/-- Claim C1 (amended): over any sequence of `add_audio` calls the
accumulator is exactly the previous contents followed by the resampled
frame, so the total bytes entering it equal the sum of the resampled
frame lengths in order, with no drops or reorders; `get_audio_chunk`
never trims the accumulator at all (only the cursor advances, nothing is
discarded at chunk emission); `get_remaining_audio` trims the whole
accumulator, exactly the bytes it returns, and is the identity on an
empty buffer. -/
theorem accumulator_conservation :
    (∀ (cls : List Nat → Bool) (now : ℚ) (frame : List Nat) (b : StreamingAudioBuffer),
        (add_audio_fn cls now frame b).1.accumulated_audio_bytes
          = b.accumulated_audio_bytes
            ++ resample_audio_fn frame PCM_SAMPLE_RATE WHISPER_SAMPLE_RATE) ∧
    (∀ (cls : List Nat → Bool) (frames : List (ℚ × List Nat)) (b : StreamingAudioBuffer),
        (runAdds cls b frames).accumulated_audio_bytes
          = b.accumulated_audio_bytes
            ++ (frames.map (fun p => resample_audio_fn p.2 PCM_SAMPLE_RATE WHISPER_SAMPLE_RATE)).flatten) ∧
    (∀ b : StreamingAudioBuffer,
        (get_audio_chunk b).1.accumulated_audio_bytes = b.accumulated_audio_bytes) ∧
    (∀ b : StreamingAudioBuffer, b.accumulated_audio_bytes ≠ [] →
        (get_remaining_audio_fn b).2 = some b.accumulated_audio_bytes ∧
        (get_remaining_audio_fn b).1.accumulated_audio_bytes = []) ∧
    (∀ b : StreamingAudioBuffer, b.accumulated_audio_bytes = [] →
        get_remaining_audio_fn b = (b, none)) := by
  refine ⟨add_audio_acc, runAdds_acc, get_audio_chunk_acc, ?_, get_remaining_none⟩
  intro b hne
  rw [get_remaining_some b hne]
  exact ⟨rfl, rfl⟩

/-- Claim C1 witness: the conservation facts evaluated on a concrete
two-byte buffer. -/
theorem accumulator_conservation_witness :
    (get_remaining_audio_fn exC1w).2 = some [5, 6] ∧
    (get_remaining_audio_fn exC1w).1.accumulated_audio_bytes = [] := by
  have h := accumulator_conservation.2.2.2.1 exC1w (by simp [exC1w])
  exact ⟨h.1, h.2⟩

/-- Claim C1 counterexample: a chunk emission trims nothing.  On a buffer
holding exactly one chunk of data, `get_audio_chunk` returns a full
`REALTIME_CHUNK_BYTES` chunk, yet the accumulator afterwards is unchanged
and still holds all `REALTIME_CHUNK_BYTES` bytes — no sliding window is
discarded after chunk emission, and the trim (zero bytes) is not the
amount the returned chunk accounts for. -/
theorem get_audio_chunk_no_trim_cex :
    ((get_audio_chunk exC1).2).isSome = true ∧
    (get_audio_chunk exC1).1.accumulated_audio_bytes = exC1.accumulated_audio_bytes ∧
    exC1.accumulated_audio_bytes.length = REALTIME_CHUNK_BYTES := by
  refine ⟨?_, get_audio_chunk_acc exC1, by simp [exC1]⟩
  rw [get_audio_chunk_isSome]
  simp [exC1]

/-- Claim C2 counterexample: with accumulator `[0, 0]` and cursor `2`
there is nothing from the cursor to the end, yet `get_remaining_audio`
returns the whole accumulator `[0, 0]` instead of returning nothing. -/
theorem get_remaining_audio_cursor_cex :
    (get_remaining_audio_fn exC2).2 = some [0, 0] ∧
    exC2.accumulated_audio_bytes.drop exC2.last_processed_buffer_length = [] := by
  exact ⟨rfl, rfl⟩

/-- Claim C2 (amended): `get_remaining_audio` returns and clears the
entire accumulator — all bytes from position zero, including bytes before
the cursor that previous chunk emissions already covered — and resets the
cursor to zero; it returns nothing exactly when the accumulator is empty,
regardless of the cursor. -/
theorem get_remaining_audio_spec_amended (b : StreamingAudioBuffer) :
    (b.accumulated_audio_bytes ≠ [] →
        get_remaining_audio_fn b
          = ({ b with accumulated_audio_bytes := [], last_processed_buffer_length := 0 },
             some b.accumulated_audio_bytes)) ∧
    (b.accumulated_audio_bytes = [] → get_remaining_audio_fn b = (b, none)) :=
  ⟨fun hne => get_remaining_some b hne, fun he => get_remaining_none b he⟩

/-- Claim C2 witness: the amended flush behaviour on a concrete buffer
with a nonzero cursor. -/
theorem get_remaining_audio_spec_amended_witness :
    (get_remaining_audio_fn exC2w).2 = some [1, 2, 3] ∧
    (get_remaining_audio_fn exC2w).1.last_processed_buffer_length = 0 := by
  have h := (get_remaining_audio_spec_amended exC2w).1 (by simp [exC2w])
  rw [h]
  exact ⟨rfl, rfl⟩

/-- Claim C3: `get_audio_chunk` returns a chunk exactly when at least
`REALTIME_CHUNK_BYTES` of unconsumed data lie beyond the cursor; the
chunk is exactly `REALTIME_CHUNK_BYTES` long, starts `OVERLAP_BYTES`
before the cursor clamped to zero (Nat subtraction is the clamp), the
cursor advances to the end of the cut region, and never past the current
accumulator length. -/
theorem get_audio_chunk_spec (b : StreamingAudioBuffer) :
    (((get_audio_chunk b).2).isSome = true ↔
      (b.accumulated_audio_bytes.length : Int) - (b.last_processed_buffer_length : Int)
        ≥ (REALTIME_CHUNK_BYTES : Int)) ∧
    (∀ c : List Nat, (get_audio_chunk b).2 = some c →
      c.length = REALTIME_CHUNK_BYTES ∧
      c = (b.accumulated_audio_bytes.drop (b.last_processed_buffer_length - OVERLAP_BYTES)).take
            REALTIME_CHUNK_BYTES ∧
      (get_audio_chunk b).1.last_processed_buffer_length
        = (b.last_processed_buffer_length - OVERLAP_BYTES) + REALTIME_CHUNK_BYTES ∧
      (get_audio_chunk b).1.last_processed_buffer_length ≤ b.accumulated_audio_bytes.length) :=
  ⟨get_audio_chunk_isSome b, fun c h => get_audio_chunk_some b c h⟩

/-- Claim C3 witness: on a buffer holding `REALTIME_CHUNK_BYTES + 5`
bytes with cursor zero, a chunk is produced and the cursor lands exactly
at `REALTIME_CHUNK_BYTES`, within the accumulator. -/
theorem get_audio_chunk_spec_witness :
    ((get_audio_chunk exC3).2).isSome = true ∧
    (get_audio_chunk exC3).1.last_processed_buffer_length = REALTIME_CHUNK_BYTES := by
  have hs : ((get_audio_chunk exC3).2).isSome = true := by
    rw [(get_audio_chunk_spec exC3).1]
    simp [exC3]
  obtain ⟨c, hc⟩ := Option.isSome_iff_exists.mp hs
  have h := (get_audio_chunk_spec exC3).2 c hc
  refine ⟨hs, ?_⟩
  rw [h.2.2.1]
  simp [exC3]

/-- Claim C9: calling `get_remaining_audio` twice in a row with no
intervening `add_audio` returns nothing the second time — the first call
leaves the accumulator empty (or it already was), so the second call has
nothing to return. -/
theorem get_remaining_audio_idempotent (b : StreamingAudioBuffer) :
    (get_remaining_audio_fn (get_remaining_audio_fn b).1).2 = none := by
  by_cases hne : b.accumulated_audio_bytes = []
  · rw [get_remaining_none b hne, get_remaining_none b hne]
  · rw [get_remaining_some b hne]
    simp [get_remaining_audio_fn]

theorem submit_preserves_running (now : ℚ) (ad : List Nat) (uid : Nat) (un : String)
    (gid : Nat) (e : EngineState) :
    (submit_audio_fn now ad uid un gid e).is_running = e.is_running := by
  unfold submit_audio_fn
  split_ifs <;> rfl

theorem flushBuffers_engine (now : ℚ) (gid : Nat) (l : List (Nat × StreamingAudioBuffer)) :
    ∀ e : EngineState, e.is_running = true →
      flushBuffers now gid e l
        = { e with transcription_queue := e.transcription_queue ++ flushedTasks now gid l } := by
  induction l with
  | nil =>
    intro e he
    simp [flushBuffers, flushedTasks]
  | cons p rest ih =>
    intro e he
    obtain ⟨uid, b⟩ := p
    by_cases hb : b.accumulated_audio_bytes = []
    · have hr : (get_remaining_audio_fn b).2 = none := by rw [get_remaining_none b hb]
      simp only [flushBuffers, hr]
      rw [ih e he]
      simp [flushedTasks, hb]
    · have hr : (get_remaining_audio_fn b).2 = some b.accumulated_audio_bytes := by
        rw [get_remaining_some b hb]
      have hlen : b.accumulated_audio_bytes.length > 0 := List.length_pos.mpr hb
      simp only [flushBuffers, hr]
      rw [if_pos hlen]
      have he' : (submit_audio_fn now b.accumulated_audio_bytes uid b.username gid e).is_running
          = true := by
        rw [submit_preserves_running]
        exact he
      rw [ih _ he']
      unfold submit_audio_fn
      rw [if_pos he]
      simp only [flushedTasks]
      rw [if_pos hlen]
      simp [List.append_assoc]

theorem lookup_filter_self {α : Type} (k : Nat) (l : List (Nat × α)) :
    (l.filter (fun p => p.1 != k)).lookup k = none := by
  induction l with
  | nil => rfl
  | cons p rest ih =>
    obtain ⟨a, x⟩ := p
    by_cases hak : a = k
    · simpa [List.filter_cons, hak] using ih
    · simp only [List.filter_cons]
      have : ((a, x).1 != k) = true := by simp [hak]
      rw [if_pos this]
      simp only [List.lookup]
      have : (k == a) = false := by simp [Ne.symm hak]
      rw [this]
      exact ih

theorem not_mem_filter_ne (k : Nat) (l : List Nat) : k ∉ l.filter (fun g => g != k) := by
  intro hmem
  rw [List.mem_filter] at hmem
  simp at hmem

/-- Claim C4 counterexample: on a concrete state with one pending result
in the output queue and the polling task alive, `stop_processing`
neither dispatches the result nor removes it — the result queue is
untouched and nothing is added to the dispatched messages, so the code
does not "finally dispatch any results still sitting in the output
queue" and has no waiting phase at all (the polling task is cancelled
up front). -/
theorem stop_processing_no_dispatch_cex :
    (stop_processing 5 1 exS4).engine.result_queue = [exR4] ∧
    (stop_processing 5 1 exS4).dispatched = [] ∧
    exS4.engine.result_queue = [exR4] ∧
    exS4.result_polling_tasks = [1] := by
  refine ⟨?_, rfl, rfl, rfl⟩
  rfl

/-- Claim C4 (amended): `stop_processing` cancels the result-polling and
periodic-chunk tasks of the session, flushes every remaining speaker
buffer with a non-empty accumulator into a final submitted task in order
(no unflushed audio is dropped while the engine runs), and releases the
session buffers and text channel; it does not wait for previously
submitted tasks, and results still sitting in the output queue are left
there undispatched. -/
theorem stop_processing_spec_amended (now : ℚ) (guild_id : Nat)
    (s : RealtimeVoiceProcessorState) (h : s.engine.is_running = true) :
    (stop_processing now guild_id s).engine.transcription_queue
      = s.engine.transcription_queue
        ++ flushedTasks now guild_id ((s.audio_buffers.lookup guild_id).getD []) ∧
    (stop_processing now guild_id s).audio_buffers.lookup guild_id = none ∧
    guild_id ∉ (stop_processing now guild_id s).result_polling_tasks ∧
    guild_id ∉ (stop_processing now guild_id s).periodic_chunk_processing_tasks ∧
    guild_id ∉ (stop_processing now guild_id s).text_channels ∧
    (stop_processing now guild_id s).engine.result_queue = s.engine.result_queue ∧
    (stop_processing now guild_id s).dispatched = s.dispatched := by
  unfold stop_processing
  refine ⟨?_, ?_, ?_, ?_, ?_, ?_, rfl⟩
  · rw [flushBuffers_engine now guild_id _ s.engine h]
  · exact lookup_filter_self guild_id s.audio_buffers
  · exact not_mem_filter_ne guild_id s.result_polling_tasks
  · exact not_mem_filter_ne guild_id s.periodic_chunk_processing_tasks
  · exact not_mem_filter_ne guild_id s.text_channels
  · rw [flushBuffers_engine now guild_id _ s.engine h]

/-- Claim C4 witness: the amended stop behaviour on the concrete state
`exS4` — the buffer of speaker 42 is flushed into exactly one final task
and the session maps are cleared. -/
theorem stop_processing_spec_amended_witness :
    (stop_processing 5 1 exS4).engine.transcription_queue = [⟨[1, 2], 42, "alice", 1, 5⟩] ∧
    (stop_processing 5 1 exS4).audio_buffers.lookup 1 = none ∧
    (stop_processing 5 1 exS4).engine.result_queue = exS4.engine.result_queue := by
  have h := stop_processing_spec_amended 5 1 exS4 rfl
  refine ⟨?_, h.2.1, h.2.2.2.2.2.1⟩
  rw [h.1]
  rfl

/-- Claim C5 counterexample: when the Whisper model fails to load,
`on_ready` leaves the processor uninitialised and `join` refuses to
start the session with an error outcome — it does not start in any
degraded mode. -/
theorem join_engine_missing_cex :
    join_outcome true (on_ready_init false) = JoinOutcome.stt_not_initialized ∧
    join_outcome true (on_ready_init false) ≠ JoinOutcome.connected_and_started := by
  exact ⟨rfl, by decide⟩

/-- Claim C5 (amended): a failed model load leaves the processor
uninitialised, so `join` refuses to start (error outcome, no degraded
flag exists); with the model loaded `join` starts the session; and the
no-engine check inside the worker does drop every task (empty
transcription, nothing emitted) — but that path is unreachable from a
started session, since start refuses without the engine. -/
theorem engine_missing_spec_amended :
    join_outcome true (on_ready_init false) = JoinOutcome.stt_not_initialized ∧
    join_outcome true (on_ready_init true) = JoinOutcome.connected_and_started ∧
    (∀ (transcribe : List Nat → String) (task : TranscriptionTask),
      process_task transcribe false task = none) := by
  refine ⟨rfl, rfl, fun transcribe task => ?_⟩
  unfold process_task
  split_ifs with h1 h2
  · rfl
  · exact h2.elim
  · rfl

/-- Claim C6: `add_audio` signals utterance end exactly when the buffer
was Speaking, the resampled frame is classified non-speech, the elapsed
time since last speech strictly exceeds the silence threshold and the
post-append accumulator is non-empty; when the threshold has not yet
elapsed the buffer stays Speaking and the frame is still accumulated. -/
theorem add_audio_utterance_end_spec (cls : List Nat → Bool) (now : ℚ) (frame : List Nat)
    (b : StreamingAudioBuffer) :
    ((add_audio_fn cls now frame b).2 = true ↔
      (apply_vad cls (resample_audio_fn frame PCM_SAMPLE_RATE WHISPER_SAMPLE_RATE)
          WHISPER_SAMPLE_RATE = false ∧
       b.is_speaking = true ∧
       now - b.last_speech_time > (SILENCE_THRESHOLD_MS : ℚ) / 1000 ∧
       b.accumulated_audio_bytes ++ resample_audio_fn frame PCM_SAMPLE_RATE WHISPER_SAMPLE_RATE
         ≠ [])) ∧
    (apply_vad cls (resample_audio_fn frame PCM_SAMPLE_RATE WHISPER_SAMPLE_RATE)
        WHISPER_SAMPLE_RATE = false →
     b.is_speaking = true →
     ¬(now - b.last_speech_time > (SILENCE_THRESHOLD_MS : ℚ) / 1000) →
     (add_audio_fn cls now frame b).1.is_speaking = true ∧
     (add_audio_fn cls now frame b).1.accumulated_audio_bytes
       = b.accumulated_audio_bytes
         ++ resample_audio_fn frame PCM_SAMPLE_RATE WHISPER_SAMPLE_RATE) := by
  constructor
  · simp only [add_audio_fn]
    by_cases hv : apply_vad cls (resample_audio_fn frame PCM_SAMPLE_RATE WHISPER_SAMPLE_RATE)
        WHISPER_SAMPLE_RATE = true
    · simp [hv]
    · rw [if_neg hv]
      by_cases hcond : b.is_speaking = true
          ∧ now - b.last_speech_time > (SILENCE_THRESHOLD_MS : ℚ) / 1000
      · rw [if_pos hcond]
        by_cases hlen : 0 < (b.accumulated_audio_bytes
            ++ resample_audio_fn frame PCM_SAMPLE_RATE WHISPER_SAMPLE_RATE).length
        · rw [if_pos hlen]
          exact iff_of_true rfl
            ⟨Bool.eq_false_iff.mpr hv, hcond.1, hcond.2, List.length_pos.mp hlen⟩
        · rw [if_neg hlen]
          refine iff_of_false (by simp) ?_
          rintro ⟨_, _, _, hne⟩
          exact hlen (List.length_pos.mpr hne)
      · rw [if_neg hcond]
        refine iff_of_false (by simp) ?_
        rintro ⟨_, hsp, hel, _⟩
        exact hcond ⟨hsp, hel⟩
  · intro hv hsp hel
    simp only [add_audio_fn]
    rw [if_neg (by simp [hv]), if_neg (by simp [hel])]
    exact ⟨hsp, rfl⟩

/-- Claim C6 witness: a Speaking buffer that receives an empty (hence
VAD-negative) frame two seconds after the last speech signals utterance
end. -/
theorem rateConvert_nil (a b : Nat) : rateConvert [] a b = [] := by
  unfold rateConvert
  norm_num [ratTrunc, linspace]

theorem resample_nil (a b : Nat) : resample_audio_fn [] a b = [] := by
  have hb : bytesToInt16 [] = [] := rfl
  have hd : downmixPairs ([] : List Int) = [] := rfl
  have hi : int16ToBytes [] = [] := rfl
  simp only [resample_audio_fn, hb]
  split_ifs <;> simp only [hd, rateConvert_nil, hi]

theorem add_audio_utterance_end_witness :
    (add_audio_fn (fun _ => true) 2 [] exC6).2 = true := by
  have h := (add_audio_utterance_end_spec (fun _ => true) 2 [] exC6).1
  refine h.mpr ⟨?_, rfl, ?_, ?_⟩
  · rw [resample_nil]
    decide
  · simp only [exC6]
    norm_num [SILENCE_THRESHOLD_MS]
  · rw [resample_nil]
    simp [exC6]

/-- Claim C7: for a task that passes the minimum-size check, the worker
emits a result exactly when the stripped engine text is non-empty and is
not an exact (case-sensitive) member of the denylist; the emitted text is
the stripped text and never the empty string; empty or denylisted text
yields no result at all. -/
theorem worker_emission_spec (transcribe : List Nat → String) (task : TranscriptionTask)
    (hsize : REALTIME_CHUNK_BYTES / 2 ≤ task.audio_data.length) :
    ((process_task transcribe true task).isSome = true ↔
      (pyStrip (transcribe task.audio_data) ≠ "" ∧
       pyStrip (transcribe task.audio_data) ∉ HALLUCINATION_TEXTS)) ∧
    (∀ r : TranscriptionResult, process_task transcribe true task = some r →
      r.transcription = pyStrip (transcribe task.audio_data) ∧ r.transcription ≠ "") ∧
    (pyStrip (transcribe task.audio_data) = "" → process_task transcribe true task = none) ∧
    (pyStrip (transcribe task.audio_data) ∈ HALLUCINATION_TEXTS →
      process_task transcribe true task = none) := by
  have hne : ¬ (task.audio_data.length < REALTIME_CHUNK_BYTES / 2) := Nat.not_lt.mpr hsize
  have htr : (if True then transcribe task.audio_data else "")
      = transcribe task.audio_data := if_pos trivial
  simp only [process_task]
  rw [if_neg hne, htr]
  by_cases hcond : pyStrip (transcribe task.audio_data) ≠ ""
      ∧ pyStrip (transcribe task.audio_data) ∉ HALLUCINATION_TEXTS
  · rw [if_pos hcond]
    refine ⟨iff_of_true rfl hcond, ?_, ?_, ?_⟩
    · rintro r hr
      cases hr
      exact ⟨rfl, hcond.1⟩
    · intro h0
      exact (hcond.1 h0).elim
    · intro hmem
      exact (hcond.2 hmem).elim
  · rw [if_neg hcond]
    refine ⟨iff_of_false (by simp) hcond, ?_, fun _ => rfl, fun _ => rfl⟩
    intro r hr
    simp at hr

/-- Claim C7 witness: a half-chunk task whose engine text is a padded
non-denylisted word is emitted. -/
theorem worker_emission_spec_witness :
    (process_task (fun _ => " hello ") true exTask7).isSome = true := by
  have h := worker_emission_spec (fun _ => " hello ") exTask7 (by simp [exTask7])
  exact h.1.mpr ⟨by decide, by decide⟩

/-- Claim C8: at a supported sample rate the gate classifies a frame
shorter than one 30 ms analysis unit as non-speech, and otherwise
returns true exactly when at least one complete analysis unit is
classified speech by the underlying classifier — a disjunction, not an
average. -/
theorem apply_vad_spec (cls : List Nat → Bool) (audio_data : List Nat) (sample_rate : Nat)
    (hrate : sample_rate ∈ supported_rates) :
    (audio_data.length < sample_rate * 30 / 1000 * 2 →
      apply_vad cls audio_data sample_rate = false) ∧
    (sample_rate * 30 / 1000 * 2 ≤ audio_data.length →
      (apply_vad cls audio_data sample_rate = true ↔
        ∃ j, j < audio_data.length / (sample_rate * 30 / 1000 * 2) ∧
          cls ((audio_data.drop (j * (sample_rate * 30 / 1000 * 2))).take
            (sample_rate * 30 / 1000 * 2)) = true)) := by
  unfold apply_vad
  rw [if_neg (not_not_intro hrate)]
  constructor
  · intro hlt
    rw [if_pos hlt]
  · intro hge
    rw [if_neg (Nat.not_lt.mpr hge)]
    rw [List.any_eq_true]
    constructor
    · rintro ⟨j, hj, hcls⟩
      exact ⟨j, List.mem_range.mp hj, hcls⟩
    · rintro ⟨j, hj, hcls⟩
      exact ⟨j, List.mem_range.mpr hj, hcls⟩

/-- Claim C8 witness: a 960-byte frame at 16 kHz (exactly one 30 ms
analysis unit) with an always-speech classifier is classified speech. -/
theorem apply_vad_spec_witness :
    apply_vad (fun _ => true) (List.replicate 960 0) 16000 = true := by
  have h := apply_vad_spec (fun _ => true) (List.replicate 960 0) 16000 (by decide)
  refine (h.2 ?_).mpr ⟨0, ?_, rfl⟩
  · rw [List.length_replicate]
  · rw [List.length_replicate]
    norm_num

theorem int16ToBytes_length (l : List Int) : (int16ToBytes l).length = 2 * l.length := by
  induction l with
  | nil => rfl
  | cons s rest ih =>
    have h1 : int16ToBytes (s :: rest)
        = ((s % 65536).toNat % 256) :: ((s % 65536).toNat / 256) :: int16ToBytes rest := rfl
    rw [h1]
    simp only [List.length_cons, ih]
    omega

theorem downmixPairs_length : ∀ l : List Int, (downmixPairs l).length = l.length / 2
  | [] => rfl
  | [a] => by
    have h1 : downmixPairs [a] = [] := rfl
    rw [h1]
    simp only [List.length_nil, List.length_cons]
  | a :: b :: rest => by
    have ih := downmixPairs_length rest
    have h1 : downmixPairs (a :: b :: rest)
        = ratTrunc (((a : ℚ) + (b : ℚ)) / 2) :: downmixPairs rest := rfl
    rw [h1]
    simp only [List.length_cons, ih]
    omega

/-- Claim C10: `resample_audio` decides the stereo downmix purely by
divisibility of the decoded 16-bit sample count by two — an even-count
input (including genuinely mono input of even length) has consecutive
interleaved pairs averaged and its sample count halved before any rate
conversion, while an odd-count input skips the downmix; the subsequent
rate conversion applies exactly when the rates differ. -/
theorem resample_downmix_spec (audio_data : List Nat) (original_rate target_rate : Nat) :
    ((bytesToInt16 audio_data).length % 2 = 0 → original_rate = target_rate →
      resample_audio_fn audio_data original_rate target_rate
        = int16ToBytes (downmixPairs (bytesToInt16 audio_data)) ∧
      (resample_audio_fn audio_data original_rate target_rate).length
        = 2 * ((bytesToInt16 audio_data).length / 2)) ∧
    ((bytesToInt16 audio_data).length % 2 ≠ 0 → original_rate = target_rate →
      resample_audio_fn audio_data original_rate target_rate
        = int16ToBytes (bytesToInt16 audio_data)) ∧
    ((bytesToInt16 audio_data).length % 2 = 0 → original_rate ≠ target_rate →
      resample_audio_fn audio_data original_rate target_rate
        = int16ToBytes
            (rateConvert (downmixPairs (bytesToInt16 audio_data)) original_rate target_rate)) ∧
    ((bytesToInt16 audio_data).length % 2 ≠ 0 → original_rate ≠ target_rate →
      resample_audio_fn audio_data original_rate target_rate
        = int16ToBytes (rateConvert (bytesToInt16 audio_data) original_rate target_rate)) := by
  simp only [resample_audio_fn]
  refine ⟨fun h0 hrr => ?_, fun h0 hrr => ?_, fun h0 hrr => ?_, fun h0 hrr => ?_⟩
  · have h0' : (bytesToInt16 audio_data).length % PCM_CHANNELS = 0 := h0
    rw [if_pos h0', if_neg (not_not_intro hrr)]
    exact ⟨rfl, by rw [int16ToBytes_length, downmixPairs_length]⟩
  · have h0' : ¬ ((bytesToInt16 audio_data).length % PCM_CHANNELS = 0) := h0
    rw [if_neg h0', if_neg (not_not_intro hrr)]
  · have h0' : (bytesToInt16 audio_data).length % PCM_CHANNELS = 0 := h0
    rw [if_pos h0', if_pos hrr]
  · have h0' : ¬ ((bytesToInt16 audio_data).length % PCM_CHANNELS = 0) := h0
    rw [if_neg h0', if_pos hrr]

/-- Claim C10 witness: a genuinely mono even-length frame (samples 100
and 200) is downmixed anyway — at equal rates the output is the single
averaged sample 150. -/
theorem resample_downmix_spec_witness :
    resample_audio_fn [100, 0, 200, 0] 48000 48000 = [150, 0] := by
  have h := ((resample_downmix_spec [100, 0, 200, 0] 48000 48000).1 (by decide) rfl).1
  rw [h]
  have hb : bytesToInt16 [100, 0, 200, 0] = [100, 200] := by decide
  rw [hb]
  have h2 : downmixPairs [100, 200]
      = [ratTrunc ((((100 : Int) : ℚ) + ((200 : Int) : ℚ)) / 2)] := rfl
  rw [h2]
  have h3 : ratTrunc ((((100 : Int) : ℚ) + ((200 : Int) : ℚ)) / 2) = 150 := by
    norm_num [ratTrunc]
  rw [h3]
  decide
